import Mathlib

/-!
Verification of the restaurant-search service (`src/services/googleMapsService.ts`)
of the mcp-booking repository.

The service's pure and stateful logic is shallowly embedded:

* Coordinates carry rational components.  The Haversine computation
  (`calculateDistance`) uses floating-point trigonometry, which has no
  executable shallow embedding; the pipeline is therefore parametrised by an
  arbitrary distance function `dist : Coord → Coord → ℚ`, and the pipeline
  theorems hold for every such function (the Haversine one included).
* Timestamps (`Date.now()` values) are integers; durations are integers of
  milliseconds.
* The TTL cache (`cache : Map<string, {data, timestamp}>`) is a function
  `String → Option (CacheEntry α)`; `Map.get/set/delete` become function
  lookup and pointwise update.
* The circuit breaker is the record `BreakerState` with the literal
  `recordFailure` / `shouldSkipRequest` transition functions.
* `executeConcurrently`'s worker pool writes each task's outcome into the
  slot of the task's own index (`results[currentIndex] = result`); the set
  of write events is abstracted as a `schedule : List ℕ` of claimed indices,
  so that statements can quantify over every completion order.
* Promise-based concurrency of `getRestaurantDetails` follows the JavaScript
  event-loop: the synchronous prefix of the method (cache check, breaker
  check, pending-token check-and-set) is one atomic step
  (`getRestaurantDetails` below), and the settlement of the shared upstream
  promise (token removal, caching, result delivery) is a second atomic step
  (`getRestaurantDetailsSettle`).
-/

/-- Coordinate pair, as in `Location` of `src/types/index.ts`. -/
structure Coord where
  latitude : ℚ
  longitude : ℚ
deriving DecidableEq

/-- Raw nearby-search result: only the fields the pipeline reads
(`place.place_id`, `place.geometry?.location`). -/
structure RawPlace where
  place_id : Option String
  geometry : Option Coord
deriving DecidableEq

/-- Restaurant entity, restricted to the fields the verified claims mention
(`placeId`, `name`, `address`, `location`, `distance`). `distance` is the
field stamped by `searchRestaurants` (`restaurant.distance = Math.round(...)`). -/
structure Restaurant where
  placeId : String
  name : String
  address : String
  location : Coord
  distance : Option ℤ
deriving DecidableEq

/-! ## Cache (`getCachedData` / `setCachedData`) -/

/-- Cache entry `{ data, timestamp }`. -/
structure CacheEntry (α : Type) where
  data : α
  timestamp : ℤ
deriving DecidableEq

/-- `cacheTimeout = 5 * 60 * 1000` (5 minutes), from the class field. -/
def cacheTimeout : ℤ := 5 * 60 * 1000

/-- Embedding of `getCachedData(key)`.  The `Map` is a function; the method
returns the payload (or `none`) together with the possibly-updated map
(`this.cache.delete(key)` on an expired entry). -/
def getCachedData {α : Type} (cache : String → Option (CacheEntry α)) (key : String)
    (now : ℤ) : Option α × (String → Option (CacheEntry α)) :=
  match cache key with
  | none => (none, cache)
  | some cached =>
    if now - cached.timestamp > cacheTimeout then
      (none, fun k2 => if k2 = key then none else cache k2)
    else
      (some cached.data, cache)

/-- Embedding of `setCachedData(key, data)`. -/
def setCachedData {α : Type} (cache : String → Option (CacheEntry α)) (key : String)
    (data : α) (now : ℤ) : String → Option (CacheEntry α) :=
  fun k2 => if k2 = key then some ⟨data, now⟩ else cache k2

/-! ## Circuit breaker (`recordFailure` / `shouldSkipRequest`) -/

/-- `circuitBreakerThreshold = 5`, from the class field. -/
def circuitBreakerThreshold : ℕ := 5

/-- The five-minute cooldown window hard-coded in `shouldSkipRequest`. -/
def coolDownWindow : ℤ := 5 * 60 * 1000

/-- Failure-tracking state: the class fields `failureCount` and
`lastFailureTime`. -/
structure BreakerState where
  failureCount : ℕ
  lastFailureTime : ℤ
deriving DecidableEq

/-- Embedding of `recordFailure()`: increments the counter and stamps the
current time. -/
def recordFailure (st : BreakerState) (now : ℤ) : BreakerState :=
  ⟨st.failureCount + 1, now⟩

/-- Embedding of `shouldSkipRequest()`:
`failureCount >= circuitBreakerThreshold && lastFailureTime > fiveMinutesAgo`
where `fiveMinutesAgo = Date.now() - 5 * 60 * 1000`. -/
def shouldSkipRequest (st : BreakerState) (now : ℤ) : Bool :=
  decide (circuitBreakerThreshold ≤ st.failureCount) &&
    decide (now - coolDownWindow < st.lastFailureTime)

/-- A run of `recordFailure` calls at the given timestamps, in order. -/
def recordFailures (b : BreakerState) (ts : List ℤ) : BreakerState :=
  ts.foldl recordFailure b

/-! ## Booking-info analysis (`analyzeBookingInfo` / `hasBookingKeywords`) -/

/-- The `bookingPlatform` union type of `analyzeBookingInfo`'s result. -/
inductive BookingPlatform
  | opentable
  | resy
  | yelp
  | restaurant_website
  | google_reserve
  | other
deriving DecidableEq

/-- Result record of `analyzeBookingInfo`.  An absent (`undefined`) field of
the TypeScript record is `none`. -/
structure BookingInfo where
  reservable : Bool
  bookingUrl : Option String
  bookingPlatform : Option BookingPlatform
  supportsOnlineBooking : Bool
  requiresPhone : Bool
deriving DecidableEq

/-- JavaScript truthiness of an optional string (`if (phoneNumber)`,
`if (website)`): `undefined` and the empty string are falsy. -/
def truthy : Option String → Bool
  | none => false
  | some s => !s.isEmpty

/-- Embedding of `hostname.endsWith(pat)`, phrased on the character lists so
that it evaluates by kernel reduction. -/
def strEndsWith (s pat : String) : Bool :=
  pat.data.isSuffixOf s.data

/-- Embedding of `Math.round` (round half toward positive infinity):
`Math.round(x) = floor(x + 1/2)`.  For `q = num/den` this is the integer
`(2*num + den) / (2*den)` under floor division; the integer formula is used
so that concrete runs evaluate by kernel reduction.  `jsRound_eq_round`
below proves it equal to Mathlib's `round`. -/
def jsRound (q : ℚ) : ℤ := (2 * q.num + (q.den : ℤ)) / ((2 * q.den : ℕ) : ℤ)

lemma jsRound_eq_round (q : ℚ) : jsRound q = round q := by
  have hden : (q.den : ℚ) ≠ 0 := Nat.cast_ne_zero.mpr q.den_nz
  have hq : (q.num : ℚ) = q * (q.den : ℚ) := by
    have h2 := Rat.num_div_den q
    rw [div_eq_iff hden] at h2
    exact h2
  have key : q + 1 / 2 =
      ((2 * q.num + (q.den : ℤ) : ℤ) : ℚ) / ((2 * q.den : ℕ) : ℚ) := by
    push_cast
    field_simp
    linarith [hq]
  rw [round_eq, key, Rat.floor_intCast_div_natCast]
  rfl

/-- String containment, the embedding of `url.includes(keyword)` for a
non-empty needle. -/
def includesSub (s pat : String) : Bool :=
  decide (1 < (s.splitOn pat).length)

/-- The keyword list of `hasBookingKeywords`. -/
def bookingKeywords : List String :=
  ["reservation", "reservations", "book", "booking", "table", "reserve",
   "dine", "dining", "order", "menu"]

/-- Embedding of `hasBookingKeywords(url)`. -/
def hasBookingKeywords (url : String) : Bool :=
  bookingKeywords.any (fun keyword => includesSub url keyword)

/-- Embedding of `analyzeBookingInfo(website?, phoneNumber?)`.

`hostOf` stands for `new URL(website).hostname.toLowerCase()` (URL parsing is
outside the embedding; the code maps a parse failure to the empty hostname,
so `hostOf` may return any string, the empty one included).  The lowercased
URL `website.toLowerCase()` is modelled by `String.toLower`. -/
def analyzeBookingInfo (hostOf : String → String)
    (website phoneNumber : Option String) : BookingInfo :=
  let base : BookingInfo :=
    if truthy phoneNumber then
      ⟨true, none, none, false, true⟩
    else
      ⟨false, none, none, false, false⟩
  match website with
  | none => base
  | some w =>
    if w.isEmpty then base
    else
      let url := w.toLower
      let hostname := hostOf w
      if hostname = "opentable.com" ∨ strEndsWith hostname ".opentable.com" = true then
        { base with reservable := true, bookingUrl := some w,
                    bookingPlatform := some BookingPlatform.opentable,
                    supportsOnlineBooking := true, requiresPhone := false }
      else if hostname = "resy.com" ∨ strEndsWith hostname ".resy.com" = true then
        { base with reservable := true, bookingUrl := some w,
                    bookingPlatform := some BookingPlatform.resy,
                    supportsOnlineBooking := true, requiresPhone := false }
      else if (hostname = "yelp.com" ∨ strEndsWith hostname ".yelp.com" = true) ∧
          (includesSub url "reservations" = true ∨ includesSub url "book" = true) then
        { base with reservable := true, bookingUrl := some w,
                    bookingPlatform := some BookingPlatform.yelp,
                    supportsOnlineBooking := true, requiresPhone := false }
      else if hostname = "reserve.google.com" ∨
          (hostname = "google.com" ∧ includesSub url "/reserve" = true) then
        { base with reservable := true, bookingUrl := some w,
                    bookingPlatform := some BookingPlatform.google_reserve,
                    supportsOnlineBooking := true, requiresPhone := false }
      else if hasBookingKeywords url = true then
        { base with reservable := true, bookingUrl := some w,
                    bookingPlatform := some BookingPlatform.restaurant_website,
                    supportsOnlineBooking := true, requiresPhone := false }
      else
        { base with reservable := true, bookingUrl := some w,
                    bookingPlatform := some BookingPlatform.other }

/-! ## Theorems for the cache and booking claims -/

/-- Concrete one-entry cache used by witnesses: key `"k"` stored at time 0. -/
def exCache : String → Option (CacheEntry ℕ) :=
  fun k => if k = "k" then some ⟨42, 0⟩ else none

/-- Claim C5, counterexample.  The claim states that a get returns the
payload iff the entry is present and `now - storedAt < ttl` (strict).  At
`now - storedAt = ttl` exactly, `getCachedData` still returns the payload
(the code evicts only when `now - storedAt > ttl`), so the stated
equivalence fails at this concrete input. -/
theorem claimC5_counterexample :
    ¬ (((getCachedData exCache "k" 300000).1.isSome = true) ↔
        ((300000 : ℤ) - 0 < cacheTimeout)) := by
  decide

/-- Claim C5, amended: a get returns the cached payload iff an entry is
present and `now - storedAt ≤ ttl` (non-strict); a present-but-expired entry
(`now - storedAt > ttl`) is evicted on that read with an absent result, and
an absent key leaves the cache untouched. -/
theorem getCachedData_ttl {α : Type} (cache : String → Option (CacheEntry α))
    (key : String) (now : ℤ) :
    ((getCachedData cache key now).1.isSome = true ↔
      ∃ e, cache key = some e ∧ now - e.timestamp ≤ cacheTimeout)
    ∧ (∀ e, cache key = some e → now - e.timestamp ≤ cacheTimeout →
        getCachedData cache key now = (some e.data, cache))
    ∧ (∀ e, cache key = some e → now - e.timestamp > cacheTimeout →
        (getCachedData cache key now).1 = none ∧
        (getCachedData cache key now).2 key = none)
    ∧ (cache key = none → getCachedData cache key now = (none, cache)) := by
  refine ⟨?_, ?_, ?_, ?_⟩
  · constructor
    · intro h
      cases hc : cache key with
      | none => simp [getCachedData, hc] at h
      | some e =>
        by_cases hexp : now - e.timestamp > cacheTimeout
        · simp [getCachedData, hc, hexp] at h
        · exact ⟨e, rfl, by omega⟩
    · rintro ⟨e, hc, hfresh⟩
      have hexp : ¬ now - e.timestamp > cacheTimeout := by omega
      simp [getCachedData, hc, hexp]
  · intro e hc hfresh
    have hexp : ¬ now - e.timestamp > cacheTimeout := by omega
    simp [getCachedData, hc, hexp]
  · intro e hc hexp
    refine ⟨?_, ?_⟩ <;> simp [getCachedData, hc, hexp]
  · intro hc
    simp [getCachedData, hc]

/-- Witness for `getCachedData_ttl`: the fresh-entry branch at the concrete
cache `exCache`, read at time 100. -/
theorem getCachedData_ttl_witness :
    (exCache "k" = some ⟨42, 0⟩ ∧ (100 : ℤ) - (0 : ℤ) ≤ cacheTimeout)
    ∧ getCachedData exCache "k" 100 = (some 42, exCache) :=
  ⟨⟨rfl, by decide⟩, (getCachedData_ttl exCache "k" 100).2.1 ⟨42, 0⟩ rfl (by decide)⟩

/-- Claim C8: whenever the website's hostname is `opentable.com` or a
subdomain of it, the derived booking info has platform `opentable`, supports
online booking, and does not require a phone call — whatever phone number is
present. -/
theorem analyzeBookingInfo_opentable (hostOf : String → String) (w : String)
    (phoneNumber : Option String) (hw : w.isEmpty = false)
    (hh : hostOf w = "opentable.com" ∨ strEndsWith (hostOf w) ".opentable.com" = true) :
    (analyzeBookingInfo hostOf (some w) phoneNumber).bookingPlatform =
      some BookingPlatform.opentable
    ∧ (analyzeBookingInfo hostOf (some w) phoneNumber).supportsOnlineBooking = true
    ∧ (analyzeBookingInfo hostOf (some w) phoneNumber).requiresPhone = false := by
  unfold analyzeBookingInfo
  simp only [hw, Bool.false_eq_true, if_false, if_pos hh]
  refine ⟨?_, ?_, ?_⟩ <;> cases truthy phoneNumber <;> simp

/-- Witness for `analyzeBookingInfo_opentable`: the spec's own scenario, a
`www.opentable.com` URL together with a phone number. -/
theorem analyzeBookingInfo_opentable_witness :
    (("https://www.opentable.com/restaurant/x" : String).isEmpty = false
      ∧ ((fun _ : String => "www.opentable.com") "https://www.opentable.com/restaurant/x"
            = "opentable.com"
          ∨ (strEndsWith ((fun _ : String => "www.opentable.com")
              "https://www.opentable.com/restaurant/x") ".opentable.com") = true))
    ∧ (analyzeBookingInfo (fun _ => "www.opentable.com")
        (some "https://www.opentable.com/restaurant/x")
        (some "+1 212 555 0100")).bookingPlatform = some BookingPlatform.opentable
    ∧ (analyzeBookingInfo (fun _ => "www.opentable.com")
        (some "https://www.opentable.com/restaurant/x")
        (some "+1 212 555 0100")).supportsOnlineBooking = true
    ∧ (analyzeBookingInfo (fun _ => "www.opentable.com")
        (some "https://www.opentable.com/restaurant/x")
        (some "+1 212 555 0100")).requiresPhone = false :=
  ⟨⟨rfl, Or.inr (by decide)⟩,
    analyzeBookingInfo_opentable (fun _ => "www.opentable.com")
      "https://www.opentable.com/restaurant/x" (some "+1 212 555 0100") rfl
      (Or.inr (by decide))⟩

/-- Claim C9: with no website and a (non-empty) phone number present, the
derived booking info is exactly reservable, phone-required, no online
booking, no platform, no booking URL. -/
theorem analyzeBookingInfo_phoneOnly (hostOf : String → String) (p : String)
    (hp : p.isEmpty = false) :
    analyzeBookingInfo hostOf none (some p) =
      ⟨true, none, none, false, true⟩ := by
  simp [analyzeBookingInfo, truthy, hp]

/-- Witness for `analyzeBookingInfo_phoneOnly` at a concrete phone number. -/
theorem analyzeBookingInfo_phoneOnly_witness :
    (("+886 2 1234 5678" : String).isEmpty = false)
    ∧ analyzeBookingInfo (fun _ => "") none (some "+886 2 1234 5678") =
        ⟨true, none, none, false, true⟩ :=
  ⟨rfl, analyzeBookingInfo_phoneOnly (fun _ => "") "+886 2 1234 5678" rfl⟩

/-! ## Concurrency pool (`executeConcurrently`) -/

/-- Embedding of `executeConcurrently(promises, concurrency)`.  Each worker
claims an index from the shared cursor and writes that task's outcome into
`results[currentIndex]`; a task exception is caught and stored as `null`
(already folded into the outcome values here).  `schedule` is the list of
claimed indices in completion order; the result slot of an index outside the
schedule keeps the placeholder `dflt`. -/
def executeConcurrently {α : Type} (outcomes : List α) (dflt : α)
    (schedule : List ℕ) : List α :=
  schedule.foldl (fun acc i => acc.set i (outcomes.getD i dflt))
    (List.replicate outcomes.length dflt)

lemma foldl_set_length {α : Type} (outcomes : List α) (dflt : α) :
    ∀ (schedule : List ℕ) (init : List α),
      (schedule.foldl (fun acc i => acc.set i (outcomes.getD i dflt)) init).length =
        init.length := by
  intro schedule
  induction schedule with
  | nil => intro init; rfl
  | cons i tl ih =>
    intro init
    rw [List.foldl_cons, ih (init.set i (outcomes.getD i dflt)), List.length_set]

lemma foldl_set_getElem {α : Type} (outcomes : List α) (dflt : α) :
    ∀ (schedule : List ℕ) (init : List α), init.length = outcomes.length →
      ∀ j, j < outcomes.length →
        (schedule.foldl (fun acc i => acc.set i (outcomes.getD i dflt)) init)[j]? =
          if j ∈ schedule then outcomes[j]? else init[j]? := by
  intro schedule
  induction schedule with
  | nil => intro init hlen j hj; simp
  | cons i tl ih =>
    intro init hlen j hj
    rw [List.foldl_cons]
    rw [ih (init.set i (outcomes.getD i dflt)) (by simp [hlen]) j hj]
    by_cases hmem : j ∈ tl
    · simp [hmem, List.mem_cons]
    · by_cases hij : j = i
      · subst hij
        have hjlt : j < init.length := hlen ▸ hj
        rw [List.getElem?_set_self hjlt]
        have : outcomes[j]? = some (outcomes.getD j dflt) := by
          rw [List.getD_eq_getElem?_getD]
          cases ho : outcomes[j]? with
          | none => exact absurd (List.getElem?_eq_none_iff.mp ho) (by omega)
          | some a => simp
        rw [if_neg hmem, if_pos (List.mem_cons_self j tl), this]
      · rw [List.getElem?_set_ne (fun h => hij h.symm)]
        simp [hmem, List.mem_cons, hij]

/-- With a complete schedule (every index claimed by some worker), the
result array is exactly the outcome array, index-aligned, whatever the
completion order was. -/
lemma executeConcurrently_complete {α : Type} (outcomes : List α) (dflt : α)
    (schedule : List ℕ) (h : ∀ j, j < outcomes.length → j ∈ schedule) :
    executeConcurrently outcomes dflt schedule = outcomes := by
  apply List.ext_getElem?
  intro j
  by_cases hj : j < outcomes.length
  · rw [executeConcurrently,
      foldl_set_getElem outcomes dflt schedule _ (List.length_replicate _ _) j hj]
    simp [h j hj]
  · rw [List.getElem?_eq_none (l := outcomes) (by omega), List.getElem?_eq_none]
    rw [executeConcurrently, foldl_set_length outcomes dflt schedule,
      List.length_replicate]
    omega

/-- Every slot of the result array holds some task's outcome or the
placeholder. -/
lemma mem_executeConcurrently {α : Type} {outcomes : List α} {dflt : α}
    {schedule : List ℕ} {a : α} (h : a ∈ executeConcurrently outcomes dflt schedule) :
    a ∈ outcomes ∨ a = dflt := by
  rw [executeConcurrently] at h
  have main : ∀ (sch : List ℕ) (init : List α),
      (∀ x ∈ init, x ∈ outcomes ∨ x = dflt) →
      ∀ x ∈ sch.foldl (fun acc i => acc.set i (outcomes.getD i dflt)) init,
        x ∈ outcomes ∨ x = dflt := by
    intro sch
    induction sch with
    | nil => intro init hinit x hx; exact hinit x hx
    | cons i tl ih =>
      intro init hinit x hx
      rw [List.foldl_cons] at hx
      refine ih (init.set i (outcomes.getD i dflt)) ?_ x hx
      intro y hy
      rcases List.mem_or_eq_of_mem_set hy with hy2 | hy2
      · exact hinit y hy2
      · subst hy2
        rw [List.getD_eq_getElem?_getD]
        cases ho : outcomes[i]? with
        | none => exact Or.inr rfl
        | some b => exact Or.inl (by simpa using List.getElem?_mem ho)
  refine main schedule _ ?_ a h
  intro x hx
  exact Or.inr (List.eq_of_mem_replicate hx)

/-! ## The search pipeline (`searchRestaurants`) -/

/-- The pre-filter loop of `searchRestaurants` (lines 282–297): for each raw
result carrying a geometry, compute the distance from the search origin and
keep the pair `(place, distance)` iff `distance <= radius`. -/
def placesWithDistance (dist : Coord → Coord → ℚ) (origin : Coord) (radius : ℚ)
    (results : List RawPlace) : List (RawPlace × ℚ) :=
  results.filterMap (fun place =>
    match place.geometry with
    | none => none
    | some c =>
      let d := dist origin c
      if d ≤ radius then some (place, d) else none)

/-- Lines 299–303: sort the surviving candidates ascending by distance and
keep at most 15 (`.sort((a, b) => a.distance - b.distance).slice(0, 15)`).
The carried `ℚ` component is the `preliminaryDistance` stored on the
candidate. -/
def preFilteredResults (dist : Coord → Coord → ℚ) (origin : Coord) (radius : ℚ)
    (results : List RawPlace) : List (RawPlace × ℚ) :=
  (List.insertionSort (fun a b : RawPlace × ℚ => a.2 ≤ b.2)
    (placesWithDistance dist origin radius results)).take 15

/-- One detail-fetch task of the batch (lines 306–352): look the place up by
`place_id` (the cache / dedup / circuit-breaker layers and every failure mode
are folded into `fetch` returning `none`), and on success stamp
`restaurant.distance = Math.round(place.preliminaryDistance)`.  A candidate
without a `place_id`, a failed fetch, or a caught exception yields `null`. -/
def candidateTask (fetch : String → Option Restaurant) (pd : RawPlace × ℚ) :
    Option Restaurant :=
  match pd.1.place_id with
  | none => none
  | some pid =>
    (fetch pid).map (fun r => { r with distance := some (jsRound pd.2) })

/-- Embedding of the post-nearby-search part of `searchRestaurants` (lines
282–380), for an already-successful primary call returning `results`:
pre-filter by distance, sort, truncate to 15, run the detail-fetch tasks
through the worker pool (under an arbitrary completion schedule), drop the
`null` slots, and sort the survivors ascending by the stamped distance
(`(a.distance || 0) - (b.distance || 0)`). -/
def searchRestaurants (dist : Coord → Coord → ℚ) (origin : Coord) (radius : ℚ)
    (results : List RawPlace) (fetch : String → Option Restaurant)
    (schedule : List ℕ) : List Restaurant :=
  List.insertionSort (fun a b : Restaurant => a.distance.getD 0 ≤ b.distance.getD 0)
    ((executeConcurrently
        ((preFilteredResults dist origin radius results).map (candidateTask fetch))
        none schedule).filterMap id)

lemma mem_preFilteredResults {dist : Coord → Coord → ℚ} {origin : Coord}
    {radius : ℚ} {results : List RawPlace} {pd : RawPlace × ℚ}
    (h : pd ∈ preFilteredResults dist origin radius results) :
    pd ∈ placesWithDistance dist origin radius results :=
  (List.perm_insertionSort _ _).mem_iff.mp (List.take_subset _ _ h)

lemma mem_placesWithDistance {dist : Coord → Coord → ℚ} {origin : Coord}
    {radius : ℚ} {results : List RawPlace} {pd : RawPlace × ℚ}
    (h : pd ∈ placesWithDistance dist origin radius results) :
    pd.2 ≤ radius ∧ ∃ c, pd.1.geometry = some c ∧ pd.2 = dist origin c := by
  rcases List.mem_filterMap.mp h with ⟨place, _, hf⟩
  cases hg : place.geometry with
  | none => rw [hg] at hf; simp at hf
  | some c =>
    rw [hg] at hf
    by_cases hd : dist origin c ≤ radius
    · simp only [hd, if_pos] at hf
      cases hf
      exact ⟨hd, c, hg, rfl⟩
    · simp [hd] at hf

lemma mem_searchRestaurants {dist : Coord → Coord → ℚ} {origin : Coord}
    {radius : ℚ} {results : List RawPlace} {fetch : String → Option Restaurant}
    {schedule : List ℕ} {r : Restaurant}
    (h : r ∈ searchRestaurants dist origin radius results fetch schedule) :
    ∃ pd ∈ preFilteredResults dist origin radius results,
      candidateTask fetch pd = some r := by
  rw [searchRestaurants] at h
  have h2 := (List.perm_insertionSort _ _).mem_iff.mp h
  rcases List.mem_filterMap.mp h2 with ⟨o, ho, hid⟩
  cases o with
  | none => simp at hid
  | some r2 =>
    simp only [id] at hid
    cases hid
    rcases mem_executeConcurrently ho with hin | habs
    · rcases List.mem_map.mp hin with ⟨pd, hpd, htask⟩
      exact ⟨pd, hpd, htask⟩
    · simp at habs

/-! ## Concrete pipeline instances used by counterexamples and witnesses -/

/-- A concrete distance oracle standing in for the parametric `dist`: the
distance of a point is its stored longitude.  (The pipeline theorems hold
for every `dist`; the oracle avoids `ℚ` field arithmetic, which does not
evaluate by kernel reduction, so that witnesses can be checked by
`decide`.) -/
def exDist : Coord → Coord → ℚ := fun _ b => b.longitude

/-- Search origin used by the concrete runs. -/
def exOrigin : Coord := ⟨0, 0⟩

/-- Detail record returned by the fetch for `"p1"`. -/
def exRestaurantA : Restaurant := ⟨"p1", "Cafe A", "1 First St", ⟨0, 1⟩, none⟩

/-- The same record after `searchRestaurants` stamps its distance. -/
def exRestaurantStamped : Restaurant := ⟨"p1", "Cafe A", "1 First St", ⟨0, 1⟩, some 1⟩

/-- Two raw candidates: one 1 unit from the origin, one 5000 units away
(outside a radius of 2000). -/
def exResults : List RawPlace := [⟨some "p1", some ⟨0, 1⟩⟩, ⟨some "p2", some ⟨0, 5000⟩⟩]

/-- Two raw candidates both inside the radius; the fetch fails for `"p2"`. -/
def exResultsTwo : List RawPlace := [⟨some "p1", some ⟨0, 1⟩⟩, ⟨some "p2", some ⟨0, 2⟩⟩]

/-- Fetch oracle: succeeds for `"p1"`, fails for everything else. -/
def exFetch : String → Option Restaurant :=
  fun pid => if pid = "p1" then some exRestaurantA else none

/-- One raw candidate sitting exactly at the origin. -/
def exResultsNear : List RawPlace := [⟨some "p1", some ⟨0, 0⟩⟩]

/-- Fetch oracle whose detail record carries a coordinate 5000 units from
the origin, far outside the radius of 2000. -/
def exFetchFar : String → Option Restaurant :=
  fun _ => some ⟨"p1", "Far Cafe", "9 Ninth Ave", ⟨0, 5000⟩, none⟩

/-! ## Theorems for the pipeline claims -/

/-- Claim C1, counterexample.  The claim bounds the distance from the origin
to the returned Place's own coordinate; but the filter runs on the coarse
nearby-search coordinate, and the coordinate of the returned Place comes
from the detail fetch, which the pipeline never re-checks.  Here the coarse
coordinate is at distance 0 (inside the radius) while the detail record's
coordinate is 5000 away, so the returned Place violates the claimed bound. -/
theorem claimC1_counterexample :
    ¬ (∀ r ∈ searchRestaurants exDist exOrigin 2000 exResultsNear exFetchFar [0],
        exDist exOrigin r.location ≤ 2000) := by
  decide

/-- Claim C1, amended: every candidate surviving the pre-filter has its
distance computed from its coarse nearby-search coordinate and bounded by
the radius, and every returned Place arises from such a candidate — so the
radius bound holds for the coarse coordinate the filter saw, not for the
coordinate of the detail record. -/
theorem searchRestaurants_distance_filter (dist : Coord → Coord → ℚ)
    (origin : Coord) (radius : ℚ) (results : List RawPlace)
    (fetch : String → Option Restaurant) (schedule : List ℕ) :
    (∀ pd ∈ preFilteredResults dist origin radius results,
        pd.2 ≤ radius ∧ ∃ c, pd.1.geometry = some c ∧ pd.2 = dist origin c)
    ∧ (∀ r ∈ searchRestaurants dist origin radius results fetch schedule,
        ∃ pd ∈ preFilteredResults dist origin radius results,
          candidateTask fetch pd = some r ∧ pd.2 ≤ radius) := by
  constructor
  · intro pd hpd
    exact mem_placesWithDistance (mem_preFilteredResults hpd)
  · intro r hr
    rcases mem_searchRestaurants hr with ⟨pd, hpd, htask⟩
    exact ⟨pd, hpd, htask, (mem_placesWithDistance (mem_preFilteredResults hpd)).1⟩

/-- Witness for `searchRestaurants_distance_filter`: the in-radius candidate
of `exResults` is returned and traced back to a pre-filtered candidate
within the radius. -/
theorem searchRestaurants_distance_filter_witness :
    exRestaurantStamped ∈ searchRestaurants exDist exOrigin 2000 exResults exFetch [0, 1]
    ∧ ∃ pd ∈ preFilteredResults exDist exOrigin 2000 exResults,
        candidateTask exFetch pd = some exRestaurantStamped ∧ pd.2 ≤ 2000 :=
  ⟨by decide,
    (searchRestaurants_distance_filter exDist exOrigin 2000 exResults exFetch
      [0, 1]).2 exRestaurantStamped (by decide)⟩

lemma candidateTask_isNone (fetch : String → Option Restaurant)
    (pd : RawPlace × ℚ) :
    (candidateTask fetch pd).isNone = (pd.1.place_id.bind fetch).isNone := by
  cases h : pd.1.place_id with
  | none => simp [candidateTask, h]
  | some pid => cases hf : fetch pid <;> simp [candidateTask, h, hf]

lemma length_filterMap_id {β : Type} (l : List (Option β)) :
    (l.filterMap id).length + (l.filter (fun o => o.isNone)).length = l.length := by
  induction l with
  | nil => rfl
  | cons o tl ih =>
    cases o with
    | none =>
      show (tl.filterMap id).length +
        (none :: tl.filter (fun o => o.isNone)).length = tl.length + 1
      rw [List.length_cons]
      omega
    | some a =>
      show (a :: tl.filterMap id).length +
        (tl.filter (fun o => o.isNone)).length = tl.length + 1
      rw [List.length_cons]
      omega

/-- Claim C2: with the primary nearby-search call already successful, if `M`
candidates survive pre-filtering (each carrying a place id) and exactly `K`
of the per-candidate detail fetches fail, the pipeline returns exactly
`M - K` places — whatever the completion order; the failed candidates are
dropped and the batch continues (the embedding is a total function, so no
exception escapes). -/
theorem searchRestaurants_failure_resilience (dist : Coord → Coord → ℚ)
    (origin : Coord) (radius : ℚ) (results : List RawPlace)
    (fetch : String → Option Restaurant) (schedule : List ℕ)
    (hs : ∀ j, j < (preFilteredResults dist origin radius results).length →
      j ∈ schedule)
    (hids : ∀ pd ∈ preFilteredResults dist origin radius results,
      pd.1.place_id.isSome = true) :
    (searchRestaurants dist origin radius results fetch schedule).length =
      (preFilteredResults dist origin radius results).length -
        ((preFilteredResults dist origin radius results).filter
          (fun pd => (pd.1.place_id.bind fetch).isNone)).length := by
  have hcomp : executeConcurrently
      ((preFilteredResults dist origin radius results).map (candidateTask fetch))
      none schedule =
      (preFilteredResults dist origin radius results).map (candidateTask fetch) :=
    executeConcurrently_complete _ _ _ (by simpa using hs)
  rw [searchRestaurants, (List.perm_insertionSort _ _).length_eq, hcomp]
  have hlen := length_filterMap_id
    ((preFilteredResults dist origin radius results).map (candidateTask fetch))
  rw [List.filter_map] at hlen
  have hfun : ((fun o : Option Restaurant => o.isNone) ∘ candidateTask fetch) =
      (fun pd : RawPlace × ℚ => (pd.1.place_id.bind fetch).isNone) := by
    funext pd
    exact candidateTask_isNone fetch pd
  rw [hfun] at hlen
  simp only [List.length_map] at hlen
  omega

/-- Witness for `searchRestaurants_failure_resilience`: two candidates
survive pre-filtering, the fetch for `"p2"` fails, and the pipeline (run
with completion order `[1, 0]`) returns exactly one place. -/
theorem searchRestaurants_failure_resilience_witness :
    (∀ j, j < (preFilteredResults exDist exOrigin 2000 exResultsTwo).length →
      j ∈ [1, 0])
    ∧ (∀ pd ∈ preFilteredResults exDist exOrigin 2000 exResultsTwo,
        pd.1.place_id.isSome = true)
    ∧ (searchRestaurants exDist exOrigin 2000 exResultsTwo exFetch [1, 0]).length =
        (preFilteredResults exDist exOrigin 2000 exResultsTwo).length -
          ((preFilteredResults exDist exOrigin 2000 exResultsTwo).filter
            (fun pd => (pd.1.place_id.bind exFetch).isNone)).length :=
  ⟨by decide, by decide,
    searchRestaurants_failure_resilience exDist exOrigin 2000 exResultsTwo exFetch
      [1, 0] (by decide) (by decide)⟩

/-- Claim C3: the returned sequence is non-decreasing in the stamped
distance (`(a.distance || 0) - (b.distance || 0)` ordering), for every
completion schedule of the concurrent detail fetches. -/
theorem searchRestaurants_sorted (dist : Coord → Coord → ℚ) (origin : Coord)
    (radius : ℚ) (results : List RawPlace) (fetch : String → Option Restaurant)
    (schedule : List ℕ) :
    List.Sorted (fun a b : Restaurant => a.distance.getD 0 ≤ b.distance.getD 0)
      (searchRestaurants dist origin radius results fetch schedule) := by
  haveI : IsTotal Restaurant
      (fun a b => a.distance.getD 0 ≤ b.distance.getD 0) :=
    ⟨fun a b => le_total _ _⟩
  haveI : IsTrans Restaurant
      (fun a b => a.distance.getD 0 ≤ b.distance.getD 0) :=
    ⟨fun a b c hab hbc => le_trans hab hbc⟩
  rw [searchRestaurants]
  exact List.sorted_insertionSort _ _

/-- Claim C7: every returned Place is a detail record whose `distance` field
is `Math.round` of the candidate distance precomputed at the pre-filter
stage from the coarse nearby-search coordinate — the detail record itself is
taken as fetched (its own coordinate plays no role in the stamp). -/
theorem searchRestaurants_distance_stamped (dist : Coord → Coord → ℚ)
    (origin : Coord) (radius : ℚ) (results : List RawPlace)
    (fetch : String → Option Restaurant) (schedule : List ℕ) :
    ∀ r ∈ searchRestaurants dist origin radius results fetch schedule,
      ∃ pd ∈ preFilteredResults dist origin radius results, ∃ pid base,
        pd.1.place_id = some pid ∧ fetch pid = some base ∧
        (∃ c, pd.1.geometry = some c ∧ pd.2 = dist origin c) ∧
        r = { base with distance := some (jsRound pd.2) } := by
  intro r hr
  rcases mem_searchRestaurants hr with ⟨pd, hpd, htask⟩
  have hgeo := mem_placesWithDistance (mem_preFilteredResults hpd)
  cases hid : pd.1.place_id with
  | none => simp [candidateTask, hid] at htask
  | some pid =>
    simp only [candidateTask, hid] at htask
    rcases Option.map_eq_some'.mp htask with ⟨base, hbase, hr2⟩
    exact ⟨pd, hpd, pid, base, hid, hbase, hgeo.2, hr2.symm⟩

/-- Witness for `searchRestaurants_distance_stamped` on the concrete run of
`exResults`. -/
theorem searchRestaurants_distance_stamped_witness :
    exRestaurantStamped ∈ searchRestaurants exDist exOrigin 2000 exResults exFetch [0, 1]
    ∧ ∃ pd ∈ preFilteredResults exDist exOrigin 2000 exResults, ∃ pid base,
        pd.1.place_id = some pid ∧ exFetch pid = some base ∧
        (∃ c, pd.1.geometry = some c ∧ pd.2 = exDist exOrigin c) ∧
        exRestaurantStamped = { base with distance := some (jsRound pd.2) } :=
  ⟨by decide,
    searchRestaurants_distance_stamped exDist exOrigin 2000 exResults exFetch
      [0, 1] exRestaurantStamped (by decide)⟩

/-! ## Detail fetch: cache, dedup token and circuit breaker
(`getRestaurantDetails`, lines 453–503) -/

/-- Mutable service state touched by `getRestaurantDetails`: the TTL cache,
the `pendingRequests` token map (a token is the shared in-flight promise;
only its presence matters here), the circuit breaker, and a counter of
upstream `placeDetails` calls issued. -/
structure ServiceState where
  cache : String → Option (CacheEntry Restaurant)
  pending : String → Bool
  breaker : BreakerState
  upstreamCalls : ℕ

/-- What a single caller of `getRestaurantDetails` is left with after the
synchronous prefix of the method. -/
inductive Fate
  | fromCache (r : Restaurant)
  | circuitSkip
  | joined
  | initiated
deriving DecidableEq

/-- The synchronous prefix of `getRestaurantDetails(placeId, …)` — one
atomic step of the JavaScript event loop: check the cache (possibly evicting
a stale entry), then the circuit breaker (`return null` when open), then the
pending-token map (join an in-flight request when a token exists, otherwise
install a token and issue the upstream call). -/
def getRestaurantDetails (st : ServiceState) (cacheKey : String) (now : ℤ) :
    ServiceState × Fate :=
  match getCachedData st.cache cacheKey now with
  | (some r, c2) => ({ st with cache := c2 }, Fate.fromCache r)
  | (none, c2) =>
    if shouldSkipRequest st.breaker now then
      ({ st with cache := c2 }, Fate.circuitSkip)
    else if st.pending cacheKey then
      ({ st with cache := c2 }, Fate.joined)
    else
      ({ st with
          cache := c2,
          pending := fun k2 => if k2 = cacheKey then true else st.pending k2,
          upstreamCalls := st.upstreamCalls + 1 }, Fate.initiated)

/-- Settlement of the shared detail promise with result `outcome`: the
`finally` handler removes the pending token unconditionally, and the
initiator's continuation caches a non-null result (`if (result)
setCachedData(...)`). -/
def getRestaurantDetailsSettle (st : ServiceState) (cacheKey : String)
    (outcome : Option Restaurant) (now : ℤ) : ServiceState :=
  let st1 := { st with
    pending := fun k2 => if k2 = cacheKey then false else st.pending k2 }
  match outcome with
  | some r => { st1 with cache := setCachedData st1.cache cacheKey r now }
  | none => st1

/-- The value a caller ends up with once the shared promise has settled. -/
def fateResult (f : Fate) (outcome : Option Restaurant) : Option Restaurant :=
  match f with
  | Fate.fromCache r => some r
  | Fate.circuitSkip => none
  | Fate.joined => outcome
  | Fate.initiated => outcome

/-- `n` concurrent callers of `getRestaurantDetails` for the same key: the
synchronous prefixes run one after the other (event-loop atomicity), before
the shared promise settles. -/
def arriveN (st : ServiceState) (cacheKey : String) (now : ℤ) :
    ℕ → ServiceState × List Fate
  | 0 => (st, [])
  | Nat.succ m =>
    let p := getRestaurantDetails st cacheKey now
    let q := arriveN p.1 cacheKey now m
    (q.1, p.2 :: q.2)

lemma recordFailures_failureCount (b : BreakerState) (ts : List ℤ) :
    (recordFailures b ts).failureCount = b.failureCount + ts.length := by
  induction ts generalizing b with
  | nil => rfl
  | cons t tl ih =>
    show (recordFailures (recordFailure b t) tl).failureCount = _
    rw [ih]
    show b.failureCount + 1 + tl.length = b.failureCount + (t :: tl).length
    rw [List.length_cons]
    omega

lemma recordFailures_append_one (b : BreakerState) (ts : List ℤ) (t : ℤ) :
    recordFailures b (ts ++ [t]) = recordFailure (recordFailures b ts) t := by
  rw [recordFailures, List.foldl_append]
  rfl

lemma getRestaurantDetails_miss_open (st : ServiceState) (k : String) (now : ℤ)
    (hmiss : st.cache k = none)
    (hopen : shouldSkipRequest st.breaker now = true) :
    getRestaurantDetails st k now = (st, Fate.circuitSkip) := by
  rw [getRestaurantDetails]
  have hc : getCachedData st.cache k now = (none, st.cache) := by
    rw [getCachedData, hmiss]
  rw [hc, hopen]
  simp

lemma getRestaurantDetails_miss_closed_join (st : ServiceState) (k : String)
    (now : ℤ) (hmiss : st.cache k = none)
    (hclosed : shouldSkipRequest st.breaker now = false)
    (hpend : st.pending k = true) :
    getRestaurantDetails st k now = (st, Fate.joined) := by
  rw [getRestaurantDetails]
  have hc : getCachedData st.cache k now = (none, st.cache) := by
    rw [getCachedData, hmiss]
  rw [hc, hclosed, hpend]
  simp

lemma getRestaurantDetails_miss_closed_fresh (st : ServiceState) (k : String)
    (now : ℤ) (hmiss : st.cache k = none)
    (hclosed : shouldSkipRequest st.breaker now = false)
    (hpend : st.pending k = false) :
    getRestaurantDetails st k now =
      ({ st with
          pending := fun k2 => if k2 = k then true else st.pending k2,
          upstreamCalls := st.upstreamCalls + 1 }, Fate.initiated) := by
  rw [getRestaurantDetails]
  have hc : getCachedData st.cache k now = (none, st.cache) := by
    rw [getCachedData, hmiss]
  rw [hc, hclosed, hpend]
  simp

lemma arriveN_joined (st : ServiceState) (k : String) (now : ℤ) (n : ℕ)
    (hmiss : st.cache k = none)
    (hclosed : shouldSkipRequest st.breaker now = false)
    (hpend : st.pending k = true) :
    arriveN st k now n = (st, List.replicate n Fate.joined) := by
  induction n with
  | zero => rfl
  | succ m ih =>
    rw [arriveN, getRestaurantDetails_miss_closed_join st k now hmiss hclosed hpend,
      List.replicate_succ]
    simp [ih]

/-- Claim C4: with the breaker holding `threshold` (or more) consecutive
recorded failures whose last failure is within the cooldown window of `now`,
a detail-fetch attempt on a cache miss short-circuits — it returns null,
leaves the state untouched and issues no upstream call; at a time `now2` at
which the cooldown window has elapsed since the last failure, an attempt
(cache miss, no pending token) goes through and issues the upstream call. -/
theorem circuitBreaker_trip (st : ServiceState) (ts : List ℤ) (tlast now now2 : ℤ)
    (k : String) (outcome : Option Restaurant)
    (hb : st.breaker = recordFailures ⟨0, 0⟩ (ts ++ [tlast]))
    (hlen : circuitBreakerThreshold ≤ ts.length + 1)
    (hmiss : st.cache k = none) :
    (now - tlast < coolDownWindow →
      getRestaurantDetails st k now = (st, Fate.circuitSkip)
      ∧ (getRestaurantDetails st k now).1.upstreamCalls = st.upstreamCalls
      ∧ fateResult (getRestaurantDetails st k now).2 outcome = none)
    ∧ (coolDownWindow ≤ now2 - tlast → st.pending k = false →
      (getRestaurantDetails st k now2).2 = Fate.initiated
      ∧ (getRestaurantDetails st k now2).1.upstreamCalls = st.upstreamCalls + 1) := by
  have hcount : st.breaker.failureCount = ts.length + 1 := by
    rw [hb, recordFailures_append_one]
    show (recordFailures ⟨0, 0⟩ ts).failureCount + 1 = ts.length + 1
    rw [recordFailures_failureCount]
    show 0 + ts.length + 1 = ts.length + 1
    omega
  have hlast : st.breaker.lastFailureTime = tlast := by
    rw [hb, recordFailures_append_one]
    rfl
  constructor
  · intro hwin
    have hopen : shouldSkipRequest st.breaker now = true := by
      rw [shouldSkipRequest, hcount, hlast]
      simp only [Bool.and_eq_true, decide_eq_true_eq]
      exact ⟨hlen, by omega⟩
    have h1 := getRestaurantDetails_miss_open st k now hmiss hopen
    exact ⟨h1, by rw [h1], by rw [h1]; rfl⟩
  · intro hcool hpend
    have hclosed : shouldSkipRequest st.breaker now2 = false := by
      have h2 : ¬ (now2 - coolDownWindow < tlast) := by omega
      rw [shouldSkipRequest, hlast]
      simp [h2]
    have h1 := getRestaurantDetails_miss_closed_fresh st k now2 hmiss hclosed hpend
    exact ⟨by rw [h1], by rw [h1]⟩

/-- Service state with five recorded failures, the last at time 50. -/
def exTrippedState : ServiceState :=
  { cache := fun _ => none, pending := fun _ => false,
    breaker := recordFailures ⟨0, 0⟩ ([10, 20, 30, 40] ++ [50]), upstreamCalls := 0 }

/-- Witness for `circuitBreaker_trip`: the tripped state skips at time 100
and lets a fresh attempt through at time 300050 (cooldown elapsed). -/
theorem circuitBreaker_trip_witness :
    ((100 : ℤ) - 50 < coolDownWindow ∧ coolDownWindow ≤ (300050 : ℤ) - 50
      ∧ circuitBreakerThreshold ≤ ([10, 20, 30, 40] : List ℤ).length + 1)
    ∧ (getRestaurantDetails exTrippedState "k" 100 = (exTrippedState, Fate.circuitSkip)
      ∧ (getRestaurantDetails exTrippedState "k" 100).1.upstreamCalls =
          exTrippedState.upstreamCalls
      ∧ fateResult (getRestaurantDetails exTrippedState "k" 100).2 none = none)
    ∧ ((getRestaurantDetails exTrippedState "k" 300050).2 = Fate.initiated
      ∧ (getRestaurantDetails exTrippedState "k" 300050).1.upstreamCalls =
          exTrippedState.upstreamCalls + 1) :=
  ⟨⟨by decide, by decide, by decide⟩,
    (circuitBreaker_trip exTrippedState [10, 20, 30, 40] 50 100 300050 "k" none
      rfl (by decide) rfl).1 (by decide),
    (circuitBreaker_trip exTrippedState [10, 20, 30, 40] 50 100 300050 "k" none
      rfl (by decide) rfl).2 (by decide) rfl⟩

/-- Claim C6: `n + 1` concurrent callers for the same key, starting from a
cache miss, no pending token and a closed breaker: exactly one upstream
call is issued, every caller ends up with the same shared result (whatever
it is), and the pending token is removed at settlement whether the fetch
succeeds (`outcome = some r`) or fails (`outcome = none`). -/
theorem getRestaurantDetails_dedup (st : ServiceState) (k : String) (now : ℤ)
    (outcome : Option Restaurant) (n : ℕ)
    (hmiss : st.cache k = none) (hpend : st.pending k = false)
    (hclosed : shouldSkipRequest st.breaker now = false) :
    (arriveN st k now (n + 1)).1.upstreamCalls = st.upstreamCalls + 1
    ∧ (arriveN st k now (n + 1)).2.map (fun f => fateResult f outcome) =
        List.replicate (n + 1) outcome
    ∧ (getRestaurantDetailsSettle (arriveN st k now (n + 1)).1 k outcome now).pending k
        = false := by
  have h1 := getRestaurantDetails_miss_closed_fresh st k now hmiss hclosed hpend
  set st1 : ServiceState := { st with
    pending := fun k2 => if k2 = k then true else st.pending k2,
    upstreamCalls := st.upstreamCalls + 1 } with hst1
  have h2 : arriveN st1 k now n = (st1, List.replicate n Fate.joined) := by
    apply arriveN_joined
    · exact hmiss
    · exact hclosed
    · rw [hst1]
      simp
  have harr : arriveN st k now (n + 1) =
      (st1, Fate.initiated :: List.replicate n Fate.joined) := by
    show ((arriveN (getRestaurantDetails st k now).1 k now n).1,
        (getRestaurantDetails st k now).2 ::
          (arriveN (getRestaurantDetails st k now).1 k now n).2) = _
    rw [h1]
    simp [h2]
  refine ⟨?_, ?_, ?_⟩
  · rw [harr]
  · rw [harr]
    simp [fateResult, List.replicate_succ]
  · rw [harr]
    cases outcome <;> simp [getRestaurantDetailsSettle]

/-- Fresh service state: empty cache, no tokens, breaker closed. -/
def exDedupState : ServiceState :=
  { cache := fun _ => none, pending := fun _ => false, breaker := ⟨0, 0⟩,
    upstreamCalls := 0 }

/-- Witness for `getRestaurantDetails_dedup`: three concurrent callers from
the fresh state, sharing one successful fetch. -/
theorem getRestaurantDetails_dedup_witness :
    (exDedupState.cache "k" = none ∧ exDedupState.pending "k" = false
      ∧ shouldSkipRequest exDedupState.breaker 0 = false)
    ∧ ((arriveN exDedupState "k" 0 3).1.upstreamCalls = exDedupState.upstreamCalls + 1
      ∧ (arriveN exDedupState "k" 0 3).2.map
          (fun f => fateResult f (some exRestaurantA)) =
          List.replicate 3 (some exRestaurantA)
      ∧ (getRestaurantDetailsSettle (arriveN exDedupState "k" 0 3).1 "k"
          (some exRestaurantA) 0).pending "k" = false) :=
  ⟨⟨rfl, rfl, by decide⟩,
    getRestaurantDetails_dedup exDedupState "k" 0 (some exRestaurantA) 2
      rfl rfl (by decide)⟩

/-! ## Failure accounting of `searchRestaurants`
(`geocodePlaceName`, the status checks, and the top-level catch) -/

/-- Outcome of the upstream geocode call issued by `geocodePlaceName`. -/
inductive GeocodeOutcome
  | ok
  | okEmpty
  | badStatus
  | netError
deriving DecidableEq

/-- Failure accounting of `geocodePlaceName(placeName, locale)` (lines
395–447): the result is (breaker afterwards, geocode succeeded?, upstream
calls issued).  A breaker-open entry throws before the `try` block, so no
failure is recorded inside the function; a non-success status records a
failure at the status check (line 422) and the ensuing throw is caught by
the function's own catch, which records another (line 440); an empty result
list or a transport error records one failure, in the catch only. -/
def geocodePlaceName (b : BreakerState) (now : ℤ) (g : GeocodeOutcome) :
    BreakerState × Bool × ℕ :=
  if shouldSkipRequest b now then (b, false, 0)
  else
    match g with
    | GeocodeOutcome.ok => (b, true, 1)
    | GeocodeOutcome.okEmpty => (recordFailure b now, false, 1)
    | GeocodeOutcome.badStatus =>
      (recordFailure (recordFailure b now) now, false, 1)
    | GeocodeOutcome.netError => (recordFailure b now, false, 1)

/-- Input shape of a `searchRestaurants` call, as far as failure accounting
is concerned. -/
inductive SearchInput
  | noOriginNoName
  | withName (g : GeocodeOutcome) (nearbyOk : Bool)
  | withLocation (nearbyOk : Bool)
deriving DecidableEq

/-- The primary nearby-search step of `searchRestaurants`: a non-success
status records a failure (line 273) and throws into the top-level catch,
which records another (line 383). -/
def nearbyStep (b : BreakerState) (now : ℤ) (nearbyOk : Bool) :
    BreakerState × Bool :=
  if nearbyOk then (b, false)
  else (recordFailure (recordFailure b now) now, true)

/-- Failure accounting of `searchRestaurants(params)` (lines 207–390) up to
and including the primary nearby-search call: the result is (breaker
afterwards, the call threw?, upstream calls issued).  The validation failure
(neither location nor placeName, line 231) throws straight into the
top-level catch; a failing geocode rethrows and the top-level catch records
one more failure on top of those recorded inside `geocodePlaceName`. -/
def searchRestaurantsBreaker (b : BreakerState) (now : ℤ) (input : SearchInput) :
    BreakerState × Bool × ℕ :=
  match input with
  | SearchInput.noOriginNoName => (recordFailure b now, true, 0)
  | SearchInput.withName g nearbyOk =>
    match geocodePlaceName b now g with
    | (b1, false, calls) => (recordFailure b1 now, true, calls)
    | (b1, true, calls) =>
      match nearbyStep b1 now nearbyOk with
      | (b2, threw) => (b2, threw, calls + 1)
  | SearchInput.withLocation nearbyOk =>
    match nearbyStep b now nearbyOk with
    | (b2, threw) => (b2, threw, 1)

/-- Claim C10, counterexample.  The claim says a failing geocode increments
the failure counter twice; but when the geocode fails with a non-success
upstream status the counter is incremented three times (status check,
`geocodePlaceName`'s catch, and `searchRestaurants`'s catch): from a reset
breaker the count ends at 3, not 2. -/
theorem claimC10_counterexample :
    (searchRestaurantsBreaker ⟨0, 0⟩ 0
      (SearchInput.withName GeocodeOutcome.badStatus true)).1.failureCount = 3
    ∧ (searchRestaurantsBreaker ⟨0, 0⟩ 0
      (SearchInput.withName GeocodeOutcome.badStatus true)).1.failureCount ≠ 2 := by
  decide

/-- Claim C10, amended: every failing `searchRestaurants` call increments
the failure counter at least once, through the top-level catch; the
input-validation failure increments it exactly once with zero upstream
calls, so repeated invalid requests alone advance the counter; a geocode
failing from an empty result list or a transport error increments it twice
(the geocode catch and the search catch), while a geocode failing with a
non-success upstream status increments it three times (status check, the
geocode catch, and the search catch). -/
theorem searchRestaurants_failure_accounting (b : BreakerState) (now : ℤ) :
    (searchRestaurantsBreaker b now SearchInput.noOriginNoName =
        (recordFailure b now, true, 0))
    ∧ (∀ m : ℕ,
        ((fun st => (searchRestaurantsBreaker st now SearchInput.noOriginNoName).1)^[m]
            b).failureCount = b.failureCount + m)
    ∧ (shouldSkipRequest b now = false → ∀ nearbyOk,
        (searchRestaurantsBreaker b now
            (SearchInput.withName GeocodeOutcome.okEmpty nearbyOk)).1.failureCount =
          b.failureCount + 2
        ∧ (searchRestaurantsBreaker b now
            (SearchInput.withName GeocodeOutcome.netError nearbyOk)).1.failureCount =
          b.failureCount + 2
        ∧ (searchRestaurantsBreaker b now
            (SearchInput.withName GeocodeOutcome.badStatus nearbyOk)).1.failureCount =
          b.failureCount + 3)
    ∧ (∀ input, (searchRestaurantsBreaker b now input).2.1 = true →
        b.failureCount < (searchRestaurantsBreaker b now input).1.failureCount) := by
  refine ⟨rfl, ?_, ?_, ?_⟩
  · intro m
    induction m with
    | zero => rfl
    | succ m2 ih =>
      rw [Function.iterate_succ_apply']
      show ((fun st => (searchRestaurantsBreaker st now SearchInput.noOriginNoName).1)^[m2]
          b).failureCount + 1 = b.failureCount + (m2 + 1)
      rw [ih]
      omega
  · intro hclosed nearbyOk
    refine ⟨?_, ?_, ?_⟩ <;>
      simp [searchRestaurantsBreaker, geocodePlaceName, hclosed, recordFailure] <;>
      omega
  · intro input hthrew
    cases input with
    | noOriginNoName =>
      simp [searchRestaurantsBreaker, recordFailure]
    | withName g nearbyOk =>
      cases hskip : shouldSkipRequest b now with
      | true =>
        simp [searchRestaurantsBreaker, geocodePlaceName, hskip, recordFailure]
      | false =>
        cases g <;> cases nearbyOk <;>
          simp [searchRestaurantsBreaker, geocodePlaceName, nearbyStep, hskip,
            recordFailure] at hthrew ⊢ <;>
          omega
    | withLocation nearbyOk =>
      cases nearbyOk <;>
        simp [searchRestaurantsBreaker, nearbyStep, recordFailure] at hthrew ⊢ <;>
        omega

/-- Witness for `searchRestaurants_failure_accounting`: from a reset
breaker, an invalid request records one failure with zero upstream calls,
and a geocode transport error records two. -/
theorem searchRestaurants_failure_accounting_witness :
    (searchRestaurantsBreaker ⟨0, 0⟩ 0 SearchInput.noOriginNoName =
        (recordFailure ⟨0, 0⟩ 0, true, 0))
    ∧ shouldSkipRequest ⟨0, 0⟩ 0 = false
    ∧ (searchRestaurantsBreaker ⟨0, 0⟩ 0
        (SearchInput.withName GeocodeOutcome.netError true)).1.failureCount =
        (⟨0, 0⟩ : BreakerState).failureCount + 2 :=
  ⟨(searchRestaurants_failure_accounting ⟨0, 0⟩ 0).1, by decide,
    ((searchRestaurants_failure_accounting ⟨0, 0⟩ 0).2.2.1 (by decide) true).2.1⟩
